import Mathlib

/-!
# mosumosu: the Pixiv Kafka consumer (`go_kafka_consumer`)

A shallow embedding of `go_kafka_consumer/main.go` and `go_kafka_consumer/db/database.go`:
the field extractors `getString` / `getInt`, the tag extractor `extractTagList`, the record
mapper and dual write of `handlePixivJSON` / `indexToElasticsearch`, and the consume loop of
`runKafkaConsumer`.

Conventions.
* Go's `interface{}` is the inductive type `Value`; a `map[string]interface{}` is an
  association list, kept in the order in which the runtime iterates the map in this run.
* Go's `int` is the 64-bit signed integer of the usual targets, carried as an `Int`; an
  `int32` or `int64` payload is within its type's range, so widening it to `int` keeps it.
* Of the log lines only those of the loop are kept (`LogLine`); the line written by
  `handlePixivJSON` after a successful insert has no effect on what follows.
* The libraries the program calls (the JSON decoder, the number formatter of the JSON
  encoder, GORM's `Create`, the Elasticsearch client's `Index`, the Kafka reader) are
  collaborators: fields of `Env`, or the list of read results fed to the loop.
-/

namespace Mosumosu

/-! ## The open value type -/

/-- A `float64`: either the finite number `m * 2 ^ e`, or one of the three specials. -/
inductive Float64 where
  | finite (m : Int) (e : Int)
  | posInf
  | negInf
  | nan
  deriving DecidableEq, Repr

/-- Go's `interface{}` restricted to the dynamic types the program distinguishes:
`nil`, `bool`, `string`, `float64`, `int`, `int32`, `int64`, `[]interface{}` and
`map[string]interface{}`. The JSON decoder produces `null`, `bool`, `str`, finite
`float64`, `list` and `map` only. -/
inductive Value where
  | null
  | bool (b : Bool)
  | str (s : String)
  | float64 (f : Float64)
  | int (i : Int)
  | int32 (i : Int)
  | int64 (i : Int)
  | list (xs : List Value)
  | map (kvs : List (String × Value))

/-- A `map[string]interface{}`. -/
abbrev GoMap := List (String × Value)

/-- The index expression `m[k]`: the stored value, or the nil interface when the key is absent. -/
def GoMap.get (m : GoMap) (k : String) : Value :=
  match m.lookup k with
  | some v => v
  | none => Value.null

/-- The type assertion `v.(map[string]interface{})` in its comma-ok form. -/
def Value.asMap : Value → Option GoMap
  | Value.map kvs => some kvs
  | _ => none

/-- The type assertion `v.([]interface{})` in its comma-ok form. -/
def Value.asList : Value → Option (List Value)
  | Value.list xs => some xs
  | _ => none

/-! ## Integers -/

/-- The least `int` (64-bit). -/
def minInt : Int := -(2 ^ 63)

/-- The greatest `int` (64-bit). -/
def maxInt : Int := 2 ^ 63 - 1

/-- The mathematical value of a finite float with its fraction discarded (towards zero). -/
def truncFinite (m e : Int) : Int :=
  if 0 ≤ e then m * 2 ^ e.toNat else Int.tdiv m (2 ^ (-e).toNat)

/-- The conversion `int(val)` of a `float64`. The fraction is discarded; when the result is
not representable as an `int` the language leaves the value to the implementation, and the
amd64 conversion instruction then yields the least `int`, as it does for NaN. -/
def Float64.toInt : Float64 → Int
  | Float64.finite m e =>
      if minInt ≤ truncFinite m e ∧ truncFinite m e ≤ maxInt then truncFinite m e else minInt
  | _ => minInt

/-! ## Field extractors (main.go, lines 239-258) -/

/-- `getString`: the string itself, or the empty string for every other dynamic type. -/
def getString (v : Value) : String :=
  match v with
  | Value.str s => s
  | _ => ""

/-- `getInt`: the type switch over `float64`, `int`, `int32`, `int64`, with default `0`. -/
def getInt (v : Value) : Int :=
  match v with
  | Value.float64 val => val.toInt
  | Value.int val => val
  | Value.int32 val => val
  | Value.int64 val => val
  | _ => 0

/-! ## The JSON encoder, as far as `json.Marshal(tagsArr)` needs it -/

/-- The lower-case hexadecimal digit of `n < 16`. -/
def hexDigit (n : Nat) : Char :=
  "0123456789abcdef".toList.getD n '0'

/-- The encoder's rendering of one character of a string (HTML escaping on, as
`json.Marshal` has it): backslash and double quote get a backslash, the five short
control escapes, a six-character unicode escape for the other control characters and for
the less-than, greater-than and ampersand signs, and for the two line separators U+2028 and
U+2029. -/
def escapeChar (c : Char) : String :=
  if c.toNat = 0x5c then "\x5c\x5c"
  else if c.toNat = 0x22 then "\x5c\x22"
  else if c.toNat = 0x08 then "\x5cb"
  else if c.toNat = 0x0c then "\x5cf"
  else if c.toNat = 0x0a then "\x5cn"
  else if c.toNat = 0x0d then "\x5cr"
  else if c.toNat = 0x09 then "\x5ct"
  else if c.toNat < 0x20 ∨ c.toNat = 0x3c ∨ c.toNat = 0x3e ∨ c.toNat = 0x26 then
    "\x5cu00" ++ String.mk [hexDigit (c.toNat / 16), hexDigit (c.toNat % 16)]
  else if c.toNat = 0x2028 then "\x5cu2028"
  else if c.toNat = 0x2029 then "\x5cu2029"
  else String.mk [c]

/-- The encoder's rendering of a string: the escaped characters between double quotes. -/
def quoteString (s : String) : String :=
  "\x22" ++ String.join (s.toList.map escapeChar) ++ "\x22"

/-- Insertion of a rendered field into a list sorted by key. -/
def insertField (f : String × String) : List (String × String) → List (String × String)
  | [] => [f]
  | g :: gs => if f.1 < g.1 then f :: g :: gs else g :: insertField f gs

/-- The encoder writes the fields of a map in increasing key order. -/
def sortFields (fs : List (String × String)) : List (String × String) :=
  fs.foldr insertField []

mutual
/-- `json.Marshal` on a dynamic value. `fmtFloat m e` is the encoder's text for the finite
float `m * 2 ^ e`; NaN and the infinities are unsupported values, the only source of an
error among the dynamic types of `Value`. -/
def marshal (fmtFloat : Int → Int → String) : Value → Option String
  | Value.null => some "null"
  | Value.bool b => some (if b then "true" else "false")
  | Value.str s => some (quoteString s)
  | Value.float64 (Float64.finite m e) => some (fmtFloat m e)
  | Value.float64 _ => none
  | Value.int i => some (toString i)
  | Value.int32 i => some (toString i)
  | Value.int64 i => some (toString i)
  | Value.list xs =>
      (marshalList fmtFloat xs).map (fun ss => "[" ++ ",".intercalate ss ++ "]")
  | Value.map kvs =>
      (marshalFields fmtFloat kvs).map (fun fs =>
        "\x7b" ++ ",".intercalate ((sortFields fs).map (fun f => quoteString f.1 ++ ":" ++ f.2))
          ++ "\x7d")
/-- The renderings of the elements of a list, if each can be rendered. -/
def marshalList (fmtFloat : Int → Int → String) : List Value → Option (List String)
  | [] => some []
  | v :: vs =>
      match marshal fmtFloat v, marshalList fmtFloat vs with
      | some s, some ss => some (s :: ss)
      | _, _ => none
/-- The keys of a map with the renderings of their values, if each can be rendered. -/
def marshalFields (fmtFloat : Int → Int → String) :
    List (String × Value) → Option (List (String × String))
  | [] => some []
  | (k, v) :: kvs =>
      match marshal fmtFloat v, marshalFields fmtFloat kvs with
      | some s, some fs => some ((k, s) :: fs)
      | _, _ => none
end

/-- The text the encoder writes for a tag record with the single field `tag`. -/
def tagRecordText (t : String) : String :=
  "\x7b" ++ quoteString "tag" ++ ":" ++ quoteString t ++ "\x7d"

/-! ## The relational projection (db/database.go, lines 16-30) -/

/-- `db.Article`, the row of table `article`. `ID` is assigned by the store. -/
structure Article where
  ID : Nat
  Title : String
  Author : String
  Platform : String
  Summary : String
  Content : String
  WordCount : Int
  IsCompleted : Bool
  KudosCount : Int
  CommentCount : Int
  Language : String
  Tags : String
  deriving DecidableEq, Repr

/-- The values the column type `enum('ao3','Pixiv','lofter','weibo')` admits. -/
def platformEnum : List String := ["ao3", "Pixiv", "lofter", "weibo"]

/-! ## The search-index projection (main.go, lines 175-200) -/

/-- The `"author"` sub-object of the document. -/
structure AuthorDoc where
  name : String
  profile_url : String
  status : String
  deriving DecidableEq, Repr

/-- The `"interaction"` sub-object of the document. -/
structure InteractionDoc where
  reaction_count : Int
  likes_count : Int
  views_count : Int
  deriving DecidableEq, Repr

/-- The document `doc` of `indexToElasticsearch`, one field per key of the map literal. -/
structure SearchDocument where
  article_id : String
  title : String
  author : AuthorDoc
  cover_image : String
  content : String
  word_count : Int
  language : String
  status : String
  chapters : List Value
  likes : Int
  comments_count : Int
  comments : List Value
  tags : List String
  published_at : String
  estimated_read_time : String
  interaction : InteractionDoc

/-- `extractTagList` (main.go, lines 224-236): the `"tag"` strings of the elements of
`novel["tags"]["tags"]` that are maps, in order; empty when a level is missing. -/
def extractTagList (novel : GoMap) : List String :=
  match (novel.get "tags").asMap with
  | some tagsObj =>
      match (tagsObj.get "tags").asList with
      | some tagsArr =>
          tagsArr.filterMap (fun t => t.asMap.map (fun eachTag => getString (eachTag.get "tag")))
      | none => []
  | none => []

/-- The map literal `doc` built by `indexToElasticsearch` from `novel`. -/
def buildDoc (novel : GoMap) : SearchDocument where
  article_id := getString (novel.get "id")
  title := getString (novel.get "title")
  author :=
    { name := getString (novel.get "userName")
      profile_url := "https://www.pixiv.net/users/" ++ getString (novel.get "userId")
      status := "active" }
  cover_image := getString (novel.get "coverUrl")
  content := getString (novel.get "content")
  word_count := getInt (novel.get "wordCount")
  language := getString (novel.get "language")
  status := "completed"
  chapters := []
  likes := getInt (novel.get "likeCount")
  comments_count := getInt (novel.get "commentCount")
  comments := []
  tags := extractTagList novel
  published_at := getString (novel.get "uploadDate")
  estimated_read_time := toString (Int.tdiv (getInt (novel.get "readingTime")) 60) ++ "分"
  interaction :=
    { reaction_count := 0
      likes_count := getInt (novel.get "likeCount")
      views_count := getInt (novel.get "viewCount") }

/-! ## Collaborators -/

/-- The response of the index call: `IsError()` and `String()`. -/
structure IndexResponse where
  isError : Bool
  text : String
  deriving DecidableEq, Repr

/-- The libraries `handlePixivJSON` calls, over a store state `σ`:
`unmarshal` is `json.Unmarshal` into a `map[string]interface{}`, `fmtFloat` the number
formatter of the JSON encoder, `create` is `db.DB.Create(&article)` returning the assigned
identifier or the error, and `index` is `es.Index("es_article", body, WithRefresh("true"))`. -/
structure Env (σ : Type) where
  unmarshal : String → Except String GoMap
  fmtFloat : Int → Int → String
  create : Article → σ → Except String Nat × σ
  index : SearchDocument → σ → Except String IndexResponse × σ

/-- A write handed to one of the two stores. -/
inductive Write where
  | record (a : Article)
  | index (d : SearchDocument)

/-- Whether a write went to the search index. -/
def Write.isIndex : Write → Bool
  | Write.index _ => true
  | Write.record _ => false

/-- The errors `handlePixivJSON` returns, one per `fmt.Errorf` site. -/
inductive HandleError where
  | unmarshal (e : String)
  | noNovel
  | firstNovelNil
  | insertArticle (e : String)
  | indexToElasticsearch (e : String)
  deriving DecidableEq, Repr

/-- The two errors raised while locating the novel object, before any write. -/
def HandleError.isExtraction : HandleError → Bool
  | HandleError.noNovel => true
  | HandleError.firstNovelNil => true
  | _ => false

/-- What one call leaves behind: the returned error (if any), the writes attempted in
order, and the store state. -/
structure Outcome (σ : Type) where
  result : Except HandleError Unit
  writes : List Write
  store : σ

/-! ## Record mapper and dual write (main.go, lines 113-221) -/

/-- The `db.Article` built by `handlePixivJSON` from `firstNovel` (lines 135-156): the
struct literal, then `Tags` set to the serialization of `firstNovel["tags"]["tags"]` when
both assertions hold and `json.Marshal` returns no error. -/
def buildArticle (fmtFloat : Int → Int → String) (firstNovel : GoMap) : Article :=
  let article : Article :=
    { ID := 0
      Title := getString (firstNovel.get "title")
      Author := getString (firstNovel.get "userName")
      Platform := "Pixiv"
      Summary := getString (firstNovel.get "description")
      Content := getString (firstNovel.get "content")
      WordCount := getInt (firstNovel.get "wordCount")
      IsCompleted := false
      KudosCount := getInt (firstNovel.get "likeCount")
      CommentCount := getInt (firstNovel.get "commentCount")
      Language := getString (firstNovel.get "language")
      Tags := "" }
  match (firstNovel.get "tags").asMap with
  | some tagsMap =>
      match (tagsMap.get "tags").asList with
      | some tagsArr =>
          match marshal fmtFloat (Value.list tagsArr) with
          | some tagsBytes => { article with Tags := tagsBytes }
          | none => article
      | none => article
  | none => article

/-- `indexToElasticsearch`: build the document and hand it to the index; a transport error
or an error response is returned. Serializing `doc` cannot fail (strings, integers and
lists of strings only), so the collaborator receives the document itself. -/
def indexToElasticsearch {σ : Type} (env : Env σ) (novel : GoMap) (s : σ) :
    Except String Unit × List Write × σ :=
  let doc := buildDoc novel
  match env.index doc s with
  | (Except.error e, s1) => (Except.error e, [Write.index doc], s1)
  | (Except.ok idxResp, s1) =>
      if idxResp.isError then
        (Except.error ("ES index error: " ++ idxResp.text), [Write.index doc], s1)
      else (Except.ok (), [Write.index doc], s1)

/-- `handlePixivJSON`: decode, locate the first entry under `"novel"`, build the article,
insert it, then index the document. -/
def handlePixivJSON {σ : Type} (env : Env σ) (jsonStr : String) (s : σ) : Outcome σ :=
  match env.unmarshal jsonStr with
  | Except.error e => ⟨Except.error (HandleError.unmarshal e), [], s⟩
  | Except.ok root =>
      match (root.get "novel").asMap with
      | none => ⟨Except.error HandleError.noNovel, [], s⟩
      | some novelObj =>
          if novelObj.length = 0 then ⟨Except.error HandleError.noNovel, [], s⟩
          else
            match novelObj.head?.bind (fun kv => kv.2.asMap) with
            | none => ⟨Except.error HandleError.firstNovelNil, [], s⟩
            | some firstNovel =>
                let article := buildArticle env.fmtFloat firstNovel
                match env.create article s with
                | (Except.error e, s1) =>
                    ⟨Except.error (HandleError.insertArticle e), [Write.record article], s1⟩
                | (Except.ok _, s1) =>
                    match indexToElasticsearch env firstNovel s1 with
                    | (Except.error e, ws, s2) =>
                        ⟨Except.error (HandleError.indexToElasticsearch e),
                          Write.record article :: ws, s2⟩
                    | (Except.ok _, ws, s2) => ⟨Except.ok (), Write.record article :: ws, s2⟩

/-! ## The consume loop (main.go, lines 69-108) -/

/-- The fields of a `kafka.Message` the loop uses. -/
structure Message where
  Partition : Int
  Offset : Int
  Key : String
  Value : String
  deriving DecidableEq, Repr

/-- What one call of `r.ReadMessage(ctx)` returns. -/
inductive ReadResult where
  | error (e : String)
  | message (m : Message)
  deriving DecidableEq, Repr

/-- The lines the loop itself logs. -/
inductive LogLine where
  | readError (e : String)
  | received (partition offset : Int) (key : String) (msgLen : Nat)
  | handleError (e : HandleError)
  deriving DecidableEq, Repr

/-- Where control is between two iterations: at the head of the `for`, about to read
(`idle`), or past the loop (`exited`). -/
inductive Phase where
  | idle
  | exited
  deriving DecidableEq, Repr

/-- The worker between two iterations. `calls` lists the arguments of the calls of
`handlePixivJSON` made so far with what each returned, `slept` the seconds spent in
`time.Sleep`. -/
structure Worker (σ : Type) where
  phase : Phase
  store : σ
  writes : List Write
  calls : List (String × Except HandleError Unit)
  log : List LogLine
  slept : Nat

/-- The worker when the loop is entered. -/
def Worker.start {σ : Type} (s : σ) : Worker σ :=
  { phase := Phase.idle, store := s, writes := [], calls := [], log := [], slept := 0 }

/-- One iteration of the `for` of `runKafkaConsumer`, given what `ReadMessage` returns.
A worker past the loop reads nothing more. -/
def consumeStep {σ : Type} (env : Env σ) (w : Worker σ) (r : ReadResult) : Worker σ :=
  match w.phase with
  | Phase.exited => w
  | Phase.idle =>
      match r with
      | ReadResult.error e =>
          { w with log := w.log ++ [LogLine.readError e], slept := w.slept + 3 }
      | ReadResult.message m =>
          let rawJSON := m.Value
          let out := handlePixivJSON env rawJSON w.store
          { phase := Phase.idle
            store := out.store
            writes := w.writes ++ out.writes
            calls := w.calls ++ [(rawJSON, out.result)]
            log := w.log ++ [LogLine.received m.Partition m.Offset m.Key rawJSON.utf8ByteSize]
              ++ (match out.result with
                  | Except.error e => [LogLine.handleError e]
                  | Except.ok _ => [])
            slept := w.slept }

/-- `runKafkaConsumer` along the successive results of `ReadMessage`. -/
def runKafkaConsumer {σ : Type} (env : Env σ) (reads : List ReadResult) (s : σ) : Worker σ :=
  reads.foldl (consumeStep env) (Worker.start s)

/-- The payloads of the messages among the read results, in delivery order. -/
def deliveredPayloads (reads : List ReadResult) : List String :=
  reads.filterMap (fun r =>
    match r with
    | ReadResult.message m => some m.Value
    | ReadResult.error _ => none)

/-! ## In-memory collaborators, for running the model on concrete inputs -/

/-- An in-memory pair of stores: the rows of table `article` and the indexed documents. -/
structure MemStore where
  rows : List Article
  docs : List SearchDocument

/-- The empty in-memory store. -/
def MemStore.empty : MemStore := { rows := [], docs := [] }

/-- An in-memory record store: appends the row under the next identifier, or fails with
`forced` when `recordFails` is set. -/
def memCreate (recordFails : Bool) (a : Article) (s : MemStore) : Except String Nat × MemStore :=
  if recordFails then (Except.error "forced record-store failure", s)
  else
    (Except.ok (s.rows.length + 1),
      { s with rows := s.rows ++ [{ a with ID := s.rows.length + 1 }] })

/-- An in-memory index: appends the document, or fails when `indexFails` is set. -/
def memIndex (indexFails : Bool) (d : SearchDocument) (s : MemStore) :
    Except String IndexResponse × MemStore :=
  if indexFails then (Except.error "forced index failure", s)
  else (Except.ok { isError := false, text := "" }, { s with docs := s.docs ++ [d] })

/-- A decoder that knows the payloads of `table` and rejects every other text. -/
def tableUnmarshal (table : List (String × GoMap)) (jsonStr : String) : Except String GoMap :=
  match table.lookup jsonStr with
  | some root => Except.ok root
  | none => Except.error "invalid character"

/-- A number formatter for integral floats: the decimal digits of the truncated value. -/
def fmtIntegral (m e : Int) : String := toString (truncFinite m e)

/-- The in-memory environment over a decoding table. -/
def memEnv (table : List (String × GoMap)) (recordFails indexFails : Bool) : Env MemStore :=
  { unmarshal := tableUnmarshal table
    fmtFloat := fmtIntegral
    create := memCreate recordFails
    index := memIndex indexFails }

/-- An in-memory index that answers every call with an error response and stores nothing. -/
def memIndexRejecting (_d : SearchDocument) (s : MemStore) :
    Except String IndexResponse × MemStore :=
  (Except.ok { isError := true, text := "[400 Bad Request]" }, s)

/-- The in-memory environment whose record store accepts and whose index answers with an
error response. -/
def rejectingEnv (table : List (String × GoMap)) : Env MemStore :=
  { unmarshal := tableUnmarshal table
    fmtFloat := fmtIntegral
    create := memCreate false
    index := memIndexRejecting }

/-- The float `n` for an integer `n`. -/
def num (n : Int) : Value := Value.float64 (Float64.finite n 0)

/-- The text of the end-to-end scenario. -/
def scenarioJSON : String :=
  "\x7b\x22novel\x22:\x7b\x2212345\x22:\x7b\x22title\x22:\x22T\x22,\x22userName\x22:\x22A\x22,"
    ++ "\x22description\x22:\x22D\x22,\x22content\x22:\x22C\x22,\x22wordCount\x22:100,"
    ++ "\x22likeCount\x22:5,\x22commentCount\x22:2,\x22language\x22:\x22ja\x22,"
    ++ "\x22tags\x22:\x7b\x22tags\x22:[\x7b\x22tag\x22:\x22romance\x22\x7d]\x7d\x7d\x7d\x7d"

/-- The source object of the end-to-end scenario. -/
def scenarioNovel : GoMap :=
  [("title", Value.str "T"), ("userName", Value.str "A"), ("description", Value.str "D"),
   ("content", Value.str "C"), ("wordCount", num 100), ("likeCount", num 5),
   ("commentCount", num 2), ("language", Value.str "ja"),
   ("tags", Value.map [("tags", Value.list [Value.map [("tag", Value.str "romance")]])])]

/-- The decoded tree of the end-to-end scenario. -/
def scenarioRoot : GoMap := [("novel", Value.map [("12345", Value.map scenarioNovel)])]

/-- The text of a payload whose `novel` container is empty. -/
def emptyNovelJSON : String := "\x7b\x22novel\x22:\x7b\x7d\x7d"

/-- The decoding table of the sample payloads. -/
def sampleTable : List (String × GoMap) :=
  [(scenarioJSON, scenarioRoot), (emptyNovelJSON, [("novel", Value.map [])])]

/-- The payload whose inner tag list holds a bare string instead of a tag record. -/
def bareTagNovel : GoMap :=
  [("title", Value.str "T"), ("tags", Value.map [("tags", Value.list [Value.str "romance"])])]

/-- The decoding table of the payload with a bare-string tag. -/
def bareTagTable : List (String × GoMap) :=
  [("bare", [("novel", Value.map [("1", Value.map bareTagNovel)])])]

/-! ## Lemmas on `handlePixivJSON` -/

set_option maxRecDepth 100000

/-- The map assertion on a map. -/
theorem asMap_map (m : GoMap) : (Value.map m).asMap = some m := rfl

/-- The outcome when the container is missing, of another type, or empty. -/
theorem handlePixivJSON_noNovel {σ : Type} (env : Env σ) (jsonStr : String) (s : σ)
    (root : GoMap) (hdec : env.unmarshal jsonStr = Except.ok root)
    (h : (root.get "novel").asMap = none ∨ (root.get "novel").asMap = some []) :
    handlePixivJSON env jsonStr s = ⟨Except.error HandleError.noNovel, [], s⟩ := by
  unfold handlePixivJSON
  rw [hdec]
  rcases h with h | h <;> simp [h]

/-- The outcome when the first entry of the container is not a mapping. -/
theorem handlePixivJSON_firstNovelNil {σ : Type} (env : Env σ) (jsonStr : String) (s : σ)
    (root : GoMap) (k : String) (v : Value) (rest : GoMap)
    (hdec : env.unmarshal jsonStr = Except.ok root)
    (hnovel : (root.get "novel").asMap = some ((k, v) :: rest)) (hv : v.asMap = none) :
    handlePixivJSON env jsonStr s = ⟨Except.error HandleError.firstNovelNil, [], s⟩ := by
  unfold handlePixivJSON
  rw [hdec]
  simp [hnovel, hv]

/-- The outcome when the first entry is a mapping and the record store refuses the row. -/
theorem handlePixivJSON_createError {σ : Type} (env : Env σ) (jsonStr : String) (s : σ)
    (root : GoMap) (k : String) (firstNovel rest : GoMap) (e : String) (s1 : σ)
    (hdec : env.unmarshal jsonStr = Except.ok root)
    (hnovel : (root.get "novel").asMap = some ((k, Value.map firstNovel) :: rest))
    (hc : env.create (buildArticle env.fmtFloat firstNovel) s = (Except.error e, s1)) :
    handlePixivJSON env jsonStr s =
      ⟨Except.error (HandleError.insertArticle e),
        [Write.record (buildArticle env.fmtFloat firstNovel)], s1⟩ := by
  unfold handlePixivJSON
  rw [hdec]
  simp [hnovel, asMap_map, hc]

/-- The writes and the store when the first entry is a mapping and the row is stored. -/
theorem handlePixivJSON_createOk {σ : Type} (env : Env σ) (jsonStr : String) (s : σ)
    (root : GoMap) (k : String) (firstNovel rest : GoMap) (id : Nat) (s1 : σ)
    (hdec : env.unmarshal jsonStr = Except.ok root)
    (hnovel : (root.get "novel").asMap = some ((k, Value.map firstNovel) :: rest))
    (hc : env.create (buildArticle env.fmtFloat firstNovel) s = (Except.ok id, s1)) :
    (handlePixivJSON env jsonStr s).writes =
        [Write.record (buildArticle env.fmtFloat firstNovel), Write.index (buildDoc firstNovel)]
      ∧ (handlePixivJSON env jsonStr s).store = (env.index (buildDoc firstNovel) s1).2
      ∧ (handlePixivJSON env jsonStr s).result =
          (match (env.index (buildDoc firstNovel) s1).1 with
            | Except.error e => Except.error (HandleError.indexToElasticsearch e)
            | Except.ok idxResp =>
                if idxResp.isError then
                  Except.error (HandleError.indexToElasticsearch ("ES index error: " ++ idxResp.text))
                else Except.ok ()) := by
  unfold handlePixivJSON
  rw [hdec]
  rcases hi : env.index (buildDoc firstNovel) s1 with ⟨r, s2⟩
  cases r with
  | error e => simp [hnovel, asMap_map, hc, indexToElasticsearch, hi]
  | ok resp =>
      by_cases hr : resp.isError <;> simp [hnovel, asMap_map, hc, indexToElasticsearch, hi, hr]

/-- The fields of the article other than `Tags` are those of the struct literal. -/
theorem buildArticle_fields (fmtFloat : Int → Int → String) (firstNovel : GoMap) :
    (buildArticle fmtFloat firstNovel).ID = 0
      ∧ (buildArticle fmtFloat firstNovel).Title = getString (firstNovel.get "title")
      ∧ (buildArticle fmtFloat firstNovel).Author = getString (firstNovel.get "userName")
      ∧ (buildArticle fmtFloat firstNovel).Platform = "Pixiv"
      ∧ (buildArticle fmtFloat firstNovel).Summary = getString (firstNovel.get "description")
      ∧ (buildArticle fmtFloat firstNovel).Content = getString (firstNovel.get "content")
      ∧ (buildArticle fmtFloat firstNovel).WordCount = getInt (firstNovel.get "wordCount")
      ∧ (buildArticle fmtFloat firstNovel).IsCompleted = false
      ∧ (buildArticle fmtFloat firstNovel).KudosCount = getInt (firstNovel.get "likeCount")
      ∧ (buildArticle fmtFloat firstNovel).CommentCount = getInt (firstNovel.get "commentCount")
      ∧ (buildArticle fmtFloat firstNovel).Language = getString (firstNovel.get "language") := by
  unfold buildArticle
  split
  · split
    · split <;> simp
    · simp
  · simp

/-- When the first entry is a mapping, the record write comes first and at most the index
write follows. -/
theorem handlePixivJSON_writes {σ : Type} (env : Env σ) (jsonStr : String) (s : σ)
    (root : GoMap) (k : String) (firstNovel rest : GoMap)
    (hdec : env.unmarshal jsonStr = Except.ok root)
    (hnovel : (root.get "novel").asMap = some ((k, Value.map firstNovel) :: rest)) :
    (handlePixivJSON env jsonStr s).writes = [Write.record (buildArticle env.fmtFloat firstNovel)]
      ∨ (handlePixivJSON env jsonStr s).writes =
          [Write.record (buildArticle env.fmtFloat firstNovel), Write.index (buildDoc firstNovel)] := by
  rcases hc : env.create (buildArticle env.fmtFloat firstNovel) s with ⟨r, s1⟩
  cases r with
  | error e =>
      left
      rw [handlePixivJSON_createError env jsonStr s root k firstNovel rest e s1 hdec hnovel hc]
  | ok id =>
      right
      exact (handlePixivJSON_createOk env jsonStr s root k firstNovel rest id s1 hdec hnovel hc).1

/-- When the first entry is a mapping, an error returned is not an extraction error. -/
theorem handlePixivJSON_no_extraction_error {σ : Type} (env : Env σ) (jsonStr : String) (s : σ)
    (root : GoMap) (k : String) (firstNovel rest : GoMap)
    (hdec : env.unmarshal jsonStr = Except.ok root)
    (hnovel : (root.get "novel").asMap = some ((k, Value.map firstNovel) :: rest))
    (e : HandleError) (he : (handlePixivJSON env jsonStr s).result = Except.error e) :
    e.isExtraction = false := by
  rcases hc : env.create (buildArticle env.fmtFloat firstNovel) s with ⟨r, s1⟩
  cases r with
  | error e1 =>
      rw [handlePixivJSON_createError env jsonStr s root k firstNovel rest e1 s1 hdec hnovel hc]
        at he
      simp only [Except.error.injEq] at he
      rw [← he]
      rfl
  | ok id =>
      rw [(handlePixivJSON_createOk env jsonStr s root k firstNovel rest id s1 hdec hnovel
        hc).2.2] at he
      rcases hi : (env.index (buildDoc firstNovel) s1).1 with e2 | resp
      · rw [hi] at he
        simp only [Except.error.injEq] at he
        rw [← he]
        rfl
      · rw [hi] at he
        by_cases hr : resp.isError
        · simp only [hr, if_true, Except.error.injEq] at he
          rw [← he]
          rfl
        · simp [hr] at he

/-- A call that attempts a write has decoded a tree whose container starts with a mapping. -/
theorem handlePixivJSON_shape_of_writes {σ : Type} (env : Env σ) (jsonStr : String) (s : σ)
    (h : (handlePixivJSON env jsonStr s).writes ≠ []) :
    ∃ (root : GoMap) (k : String) (firstNovel rest : GoMap),
      env.unmarshal jsonStr = Except.ok root
        ∧ (root.get "novel").asMap = some ((k, Value.map firstNovel) :: rest) := by
  rcases hdec : env.unmarshal jsonStr with e | root
  · exfalso
    apply h
    unfold handlePixivJSON
    rw [hdec]
  · rcases hn : (root.get "novel").asMap with _ | novelObj
    · exact absurd (by rw [handlePixivJSON_noNovel env jsonStr s root hdec (Or.inl hn)]) h
    · cases novelObj with
      | nil => exact absurd (by rw [handlePixivJSON_noNovel env jsonStr s root hdec (Or.inr hn)]) h
      | cons kv rest =>
          obtain ⟨k, v⟩ := kv
          rcases hv : v.asMap with _ | m
          · exact absurd
              (by rw [handlePixivJSON_firstNovelNil env jsonStr s root k v rest hdec hn hv]) h
          · refine ⟨root, k, m, rest, rfl, ?_⟩
            cases v <;> simp [Value.asMap] at hv
            subst hv
            exact hn

/-! ## Structural failures: no write -/

/-- C2: when the decoded tree has no `"novel"` key, or its value is not a mapping, or it is
the empty mapping, `handlePixivJSON` returns the extraction error "no novel found" and
attempts no write: no record and no document is handed to a store, and the store state is
untouched. -/
theorem missing_container_no_write {σ : Type} (env : Env σ) (jsonStr : String) (s : σ)
    (root : GoMap) (hdec : env.unmarshal jsonStr = Except.ok root)
    (h : root.lookup "novel" = none ∨ (∀ m, root.get "novel" ≠ Value.map m)
      ∨ root.get "novel" = Value.map []) :
    (handlePixivJSON env jsonStr s).result = Except.error HandleError.noNovel
      ∧ HandleError.noNovel.isExtraction = true
      ∧ (handlePixivJSON env jsonStr s).writes = []
      ∧ (∀ a, Write.record a ∉ (handlePixivJSON env jsonStr s).writes)
      ∧ (∀ d, Write.index d ∉ (handlePixivJSON env jsonStr s).writes)
      ∧ (handlePixivJSON env jsonStr s).store = s := by
  have hshape : (root.get "novel").asMap = none ∨ (root.get "novel").asMap = some [] := by
    rcases h with h | h | h
    · left
      simp [GoMap.get, h, Value.asMap]
    · left
      cases hv : root.get "novel" with
      | map m => exact absurd hv (h m)
      | _ => rfl
    · right
      rw [h]
      rfl
  rw [handlePixivJSON_noNovel env jsonStr s root hdec hshape]
  simp [HandleError.isExtraction]

/-- C2 at the payload with an empty `novel` container, on the in-memory stores. -/
theorem missing_container_no_write_witness :
    (memEnv sampleTable false false).unmarshal emptyNovelJSON
        = Except.ok [("novel", Value.map [])]
      ∧ GoMap.get [("novel", Value.map [])] "novel" = Value.map []
      ∧ (handlePixivJSON (memEnv sampleTable false false) emptyNovelJSON MemStore.empty).result
          = Except.error HandleError.noNovel
      ∧ (handlePixivJSON (memEnv sampleTable false false) emptyNovelJSON MemStore.empty).writes
          = [] :=
  have h := missing_container_no_write (memEnv sampleTable false false) emptyNovelJSON
    MemStore.empty [("novel", Value.map [])] rfl (Or.inr (Or.inr rfl))
  ⟨rfl, rfl, h.1, h.2.2.1⟩

/-- C6: when the `"novel"` mapping has exactly one entry and its value is not a mapping,
`handlePixivJSON` returns the extraction error "first novel is nil" and attempts no write
to the record store or the index. -/
theorem non_object_entry_no_write {σ : Type} (env : Env σ) (jsonStr : String) (s : σ)
    (root : GoMap) (k : String) (v : Value)
    (hdec : env.unmarshal jsonStr = Except.ok root)
    (hnovel : root.get "novel" = Value.map [(k, v)]) (hv : ∀ m, v ≠ Value.map m) :
    (handlePixivJSON env jsonStr s).result = Except.error HandleError.firstNovelNil
      ∧ HandleError.firstNovelNil.isExtraction = true
      ∧ (handlePixivJSON env jsonStr s).writes = []
      ∧ (∀ a, Write.record a ∉ (handlePixivJSON env jsonStr s).writes)
      ∧ (∀ d, Write.index d ∉ (handlePixivJSON env jsonStr s).writes)
      ∧ (handlePixivJSON env jsonStr s).store = s := by
  have hn : (root.get "novel").asMap = some ((k, v) :: []) := by
    rw [hnovel]
    rfl
  have hv2 : v.asMap = none := by
    cases v with
    | map m => exact absurd rfl (hv m)
    | _ => rfl
  rw [handlePixivJSON_firstNovelNil env jsonStr s root k v [] hdec hn hv2]
  simp [HandleError.isExtraction]

/-- C6 at a payload whose only entry under `novel` is a string, on the in-memory stores. -/
theorem non_object_entry_no_write_witness :
    (handlePixivJSON
        (memEnv [("bad", [("novel", Value.map [("1", Value.str "x")])])] false false)
        "bad" MemStore.empty).result = Except.error HandleError.firstNovelNil
      ∧ (handlePixivJSON
        (memEnv [("bad", [("novel", Value.map [("1", Value.str "x")])])] false false)
        "bad" MemStore.empty).writes = [] :=
  have h := non_object_entry_no_write
    (memEnv [("bad", [("novel", Value.map [("1", Value.str "x")])])] false false)
    "bad" MemStore.empty [("novel", Value.map [("1", Value.str "x")])] "1" (Value.str "x")
    rfl rfl (fun m hm => by cases hm)
  ⟨h.1, h.2.2.1⟩

/-! ## The dual write -/

/-- C1, as stated, fails: on the end-to-end payload with a record store that refuses the
row, extraction succeeds, the call returns the `insertArticle` error, and the only write
attempted is the record write; the index receives nothing. -/
theorem record_failure_skips_index :
    (handlePixivJSON (memEnv sampleTable true false) scenarioJSON MemStore.empty).result
        = Except.error (HandleError.insertArticle "forced record-store failure")
      ∧ (handlePixivJSON (memEnv sampleTable true false) scenarioJSON MemStore.empty).writes.length
          = 1
      ∧ (handlePixivJSON (memEnv sampleTable true false) scenarioJSON MemStore.empty).writes.any
          Write.isIndex = false
      ∧ (handlePixivJSON (memEnv sampleTable true false) scenarioJSON
          MemStore.empty).store.docs.length = 0 :=
  ⟨rfl, rfl, rfl, rfl⟩

/-- C1, amended: when extraction succeeds (the container's first entry is a mapping), the
record write is attempted first. If it fails, the call returns the `insertArticle` error at
once and the index write is not attempted. If it succeeds, the index write of the document
built from the same source object is attempted next, and nothing follows it: an index
failure, whether an error of the call or an error response (`IsError()`), is returned as
the `indexToElasticsearch` error, with no further write and the store left as the index
call left it (no rollback of the stored record); a response that is no error gives `nil`. -/
theorem dual_write_sequencing {σ : Type} (env : Env σ) (jsonStr : String) (s : σ)
    (root : GoMap) (k : String) (firstNovel rest : GoMap)
    (hdec : env.unmarshal jsonStr = Except.ok root)
    (hnovel : (root.get "novel").asMap = some ((k, Value.map firstNovel) :: rest)) :
    (handlePixivJSON env jsonStr s).writes.head?
        = some (Write.record (buildArticle env.fmtFloat firstNovel))
      ∧ (∀ e s1, env.create (buildArticle env.fmtFloat firstNovel) s = (Except.error e, s1) →
          (handlePixivJSON env jsonStr s).result = Except.error (HandleError.insertArticle e)
            ∧ (handlePixivJSON env jsonStr s).writes
                = [Write.record (buildArticle env.fmtFloat firstNovel)]
            ∧ (∀ d, Write.index d ∉ (handlePixivJSON env jsonStr s).writes)
            ∧ (handlePixivJSON env jsonStr s).store = s1)
      ∧ (∀ id s1, env.create (buildArticle env.fmtFloat firstNovel) s = (Except.ok id, s1) →
          (handlePixivJSON env jsonStr s).writes
              = [Write.record (buildArticle env.fmtFloat firstNovel),
                  Write.index (buildDoc firstNovel)]
            ∧ (handlePixivJSON env jsonStr s).store = (env.index (buildDoc firstNovel) s1).2
            ∧ (∀ e, (env.index (buildDoc firstNovel) s1).1 = Except.error e →
                (handlePixivJSON env jsonStr s).result
                  = Except.error (HandleError.indexToElasticsearch e))
            ∧ (∀ idxResp, (env.index (buildDoc firstNovel) s1).1 = Except.ok idxResp →
                idxResp.isError = true →
                (handlePixivJSON env jsonStr s).result
                  = Except.error
                      (HandleError.indexToElasticsearch ("ES index error: " ++ idxResp.text)))
            ∧ (∀ idxResp, (env.index (buildDoc firstNovel) s1).1 = Except.ok idxResp →
                idxResp.isError = false →
                (handlePixivJSON env jsonStr s).result = Except.ok ())) := by
  refine ⟨?_, ?_, ?_⟩
  · rcases handlePixivJSON_writes env jsonStr s root k firstNovel rest hdec hnovel with h | h <;>
      rw [h] <;> rfl
  · intro e s1 hc
    rw [handlePixivJSON_createError env jsonStr s root k firstNovel rest e s1 hdec hnovel hc]
    simp
  · intro id s1 hc
    obtain ⟨hw, hs, hr⟩ :=
      handlePixivJSON_createOk env jsonStr s root k firstNovel rest id s1 hdec hnovel hc
    refine ⟨hw, hs, ?_, ?_, ?_⟩
    · intro e he
      rw [hr, he]
    · intro idxResp he hbad
      rw [hr, he]
      simp [hbad]
    · intro idxResp he hgood
      rw [hr, he]
      simp [hgood]

/-- C1, amended, on the in-memory stores: with an index whose call fails, and with an index
that answers with an error response, the error is returned and the row stays stored; with
a working index the call returns no error. -/
theorem dual_write_sequencing_witness :
    (memEnv sampleTable false true).unmarshal scenarioJSON = Except.ok scenarioRoot
      ∧ (scenarioRoot.get "novel").asMap = some (("12345", Value.map scenarioNovel) :: [])
      ∧ (handlePixivJSON (memEnv sampleTable false true) scenarioJSON MemStore.empty).writes
          = [Write.record (buildArticle fmtIntegral scenarioNovel),
              Write.index (buildDoc scenarioNovel)]
      ∧ (handlePixivJSON (memEnv sampleTable false true) scenarioJSON MemStore.empty).result
          = Except.error (HandleError.indexToElasticsearch "forced index failure")
      ∧ (handlePixivJSON (memEnv sampleTable false true) scenarioJSON
          MemStore.empty).store.rows.length = 1
      ∧ (handlePixivJSON (rejectingEnv sampleTable) scenarioJSON MemStore.empty).result
          = Except.error
              (HandleError.indexToElasticsearch "ES index error: [400 Bad Request]")
      ∧ (handlePixivJSON (rejectingEnv sampleTable) scenarioJSON
          MemStore.empty).store.rows.length = 1
      ∧ (handlePixivJSON (memEnv sampleTable false false) scenarioJSON MemStore.empty).result
          = Except.ok () :=
  have h := (dual_write_sequencing (memEnv sampleTable false true) scenarioJSON MemStore.empty
    scenarioRoot "12345" scenarioNovel [] rfl rfl).2.2 1
      { rows := [{ buildArticle fmtIntegral scenarioNovel with ID := 1 }], docs := [] } rfl
  have hrej := (dual_write_sequencing (rejectingEnv sampleTable) scenarioJSON MemStore.empty
    scenarioRoot "12345" scenarioNovel [] rfl rfl).2.2 1
      { rows := [{ buildArticle fmtIntegral scenarioNovel with ID := 1 }], docs := [] } rfl
  have hok := (dual_write_sequencing (memEnv sampleTable false false) scenarioJSON
    MemStore.empty scenarioRoot "12345" scenarioNovel [] rfl rfl).2.2 1
      { rows := [{ buildArticle fmtIntegral scenarioNovel with ID := 1 }], docs := [] } rfl
  ⟨rfl, rfl, h.1, h.2.2.1 "forced index failure" rfl, by rw [h.2.1]; rfl,
    hrej.2.2.2.1 { isError := true, text := "[400 Bad Request]" } rfl rfl,
    by rw [hrej.2.1]; rfl,
    hok.2.2.2.2 { isError := false, text := "" } rfl rfl⟩

/-! ## The two projections -/

/-- C9: when extraction succeeds (the container's first entry is a mapping `firstNovel`),
exactly one record is handed to the record store, first of all writes; its `Platform` is
`"Pixiv"`, a member of the column's enumeration, its `IsCompleted` is `false`, and each of
`WordCount`, `KudosCount`, `CommentCount` is `0` when the source key `wordCount`,
`likeCount`, `commentCount` is absent from `firstNovel`. -/
theorem record_invariant {σ : Type} (env : Env σ) (jsonStr : String) (s : σ)
    (root : GoMap) (k : String) (firstNovel rest : GoMap)
    (hdec : env.unmarshal jsonStr = Except.ok root)
    (hnovel : (root.get "novel").asMap = some ((k, Value.map firstNovel) :: rest)) :
    (handlePixivJSON env jsonStr s).writes.head?
        = some (Write.record (buildArticle env.fmtFloat firstNovel))
      ∧ (∀ b, Write.record b ∈ (handlePixivJSON env jsonStr s).writes →
          b = buildArticle env.fmtFloat firstNovel)
      ∧ (buildArticle env.fmtFloat firstNovel).Platform = "Pixiv"
      ∧ (buildArticle env.fmtFloat firstNovel).Platform ∈ platformEnum
      ∧ (buildArticle env.fmtFloat firstNovel).IsCompleted = false
      ∧ (firstNovel.lookup "wordCount" = none →
          (buildArticle env.fmtFloat firstNovel).WordCount = 0)
      ∧ (firstNovel.lookup "likeCount" = none →
          (buildArticle env.fmtFloat firstNovel).KudosCount = 0)
      ∧ (firstNovel.lookup "commentCount" = none →
          (buildArticle env.fmtFloat firstNovel).CommentCount = 0) := by
  obtain ⟨-, -, -, hP, -, -, hW, hC, hK, hCo, -⟩ := buildArticle_fields env.fmtFloat firstNovel
  refine ⟨?_, ?_, hP, ?_, hC, ?_, ?_, ?_⟩
  · rcases handlePixivJSON_writes env jsonStr s root k firstNovel rest hdec hnovel with h | h <;>
      rw [h] <;> rfl
  · intro b hb
    rcases handlePixivJSON_writes env jsonStr s root k firstNovel rest hdec hnovel with h | h <;>
      rw [h] at hb <;> simpa using hb
  · rw [hP]
    simp [platformEnum]
  · intro h
    rw [hW]
    simp [GoMap.get, h, getInt]
  · intro h
    rw [hK]
    simp [GoMap.get, h, getInt]
  · intro h
    rw [hCo]
    simp [GoMap.get, h, getInt]

/-- C9 at a payload whose source object has a title only, on the in-memory stores. -/
theorem record_invariant_witness :
    (handlePixivJSON
        (memEnv [("p", [("novel", Value.map [("1", Value.map [("title", Value.str "T")])])])]
          false false) "p" MemStore.empty).writes.head?
        = some (Write.record (buildArticle fmtIntegral [("title", Value.str "T")]))
      ∧ (buildArticle fmtIntegral [("title", Value.str "T")]).Platform = "Pixiv"
      ∧ (buildArticle fmtIntegral [("title", Value.str "T")]).IsCompleted = false
      ∧ (buildArticle fmtIntegral [("title", Value.str "T")]).WordCount = 0
      ∧ (buildArticle fmtIntegral [("title", Value.str "T")]).KudosCount = 0
      ∧ (buildArticle fmtIntegral [("title", Value.str "T")]).CommentCount = 0 :=
  have h := record_invariant
    (memEnv [("p", [("novel", Value.map [("1", Value.map [("title", Value.str "T")])])])]
      false false) "p" MemStore.empty
    [("novel", Value.map [("1", Value.map [("title", Value.str "T")])])] "1"
    [("title", Value.str "T")] [] rfl rfl
  ⟨h.1, h.2.2.1, h.2.2.2.2.1, h.2.2.2.2.2.1 rfl, h.2.2.2.2.2.2.1 rfl, h.2.2.2.2.2.2.2 rfl⟩

/-- C3: when the `"novel"` mapping has exactly one entry and its value is a mapping
`firstNovel`, no extraction error is returned, a record is handed to the record store, and
every document handed to the index (one is handed whenever the record write succeeds)
carries the same source values as that record: title, author name, content, word count,
language, likes (also as `interaction.likes_count`) and comment count. -/
theorem projections_agree {σ : Type} (env : Env σ) (jsonStr : String) (s : σ)
    (root : GoMap) (k : String) (firstNovel : GoMap)
    (hdec : env.unmarshal jsonStr = Except.ok root)
    (hnovel : root.get "novel" = Value.map [(k, Value.map firstNovel)]) :
    (handlePixivJSON env jsonStr s).result ≠ Except.error HandleError.noNovel
      ∧ (handlePixivJSON env jsonStr s).result ≠ Except.error HandleError.firstNovelNil
      ∧ (handlePixivJSON env jsonStr s).writes.head?
          = some (Write.record (buildArticle env.fmtFloat firstNovel))
      ∧ (buildArticle env.fmtFloat firstNovel).Title = getString (firstNovel.get "title")
      ∧ (∀ id s1, env.create (buildArticle env.fmtFloat firstNovel) s = (Except.ok id, s1) →
          ∃ d, (handlePixivJSON env jsonStr s).writes
            = [Write.record (buildArticle env.fmtFloat firstNovel), Write.index d])
      ∧ (∀ d, Write.index d ∈ (handlePixivJSON env jsonStr s).writes →
          (buildArticle env.fmtFloat firstNovel).Title = d.title
            ∧ (buildArticle env.fmtFloat firstNovel).Author = d.author.name
            ∧ (buildArticle env.fmtFloat firstNovel).Content = d.content
            ∧ (buildArticle env.fmtFloat firstNovel).WordCount = d.word_count
            ∧ (buildArticle env.fmtFloat firstNovel).Language = d.language
            ∧ (buildArticle env.fmtFloat firstNovel).KudosCount = d.likes
            ∧ d.likes = d.interaction.likes_count
            ∧ (buildArticle env.fmtFloat firstNovel).CommentCount = d.comments_count) := by
  have hn : (root.get "novel").asMap = some ((k, Value.map firstNovel) :: []) := by
    rw [hnovel]
    rfl
  obtain ⟨-, hT, hA, -, -, hC, hW, -, hK, hCo, hL⟩ := buildArticle_fields env.fmtFloat firstNovel
  have hres := handlePixivJSON_no_extraction_error env jsonStr s root k firstNovel [] hdec hn
  refine ⟨fun h => by simpa [HandleError.isExtraction] using hres _ h,
    fun h => by simpa [HandleError.isExtraction] using hres _ h, ?_, hT, ?_, ?_⟩
  · rcases handlePixivJSON_writes env jsonStr s root k firstNovel [] hdec hn with h | h <;>
      rw [h] <;> rfl
  · intro id s1 hc
    exact ⟨buildDoc firstNovel,
      (handlePixivJSON_createOk env jsonStr s root k firstNovel [] id s1 hdec hn hc).1⟩
  · intro d hd
    have hd2 : d = buildDoc firstNovel := by
      rcases handlePixivJSON_writes env jsonStr s root k firstNovel [] hdec hn with h | h <;>
        rw [h] at hd <;> simp at hd
      exact hd
    subst hd2
    exact ⟨hT, hA, hC, hW, hL, hK, rfl, hCo⟩

/-- C3 at the end-to-end payload, on the in-memory stores. -/
theorem projections_agree_witness :
    (memEnv sampleTable false false).unmarshal scenarioJSON = Except.ok scenarioRoot
      ∧ scenarioRoot.get "novel" = Value.map [("12345", Value.map scenarioNovel)]
      ∧ ∃ d,
          (handlePixivJSON (memEnv sampleTable false false) scenarioJSON MemStore.empty).writes
              = [Write.record (buildArticle fmtIntegral scenarioNovel), Write.index d]
            ∧ (buildArticle fmtIntegral scenarioNovel).Title = "T"
            ∧ d.title = (buildArticle fmtIntegral scenarioNovel).Title
            ∧ d.likes = (buildArticle fmtIntegral scenarioNovel).KudosCount
            ∧ (buildArticle fmtIntegral scenarioNovel).KudosCount = 5 :=
  have h := projections_agree (memEnv sampleTable false false)
    scenarioJSON MemStore.empty scenarioRoot "12345" scenarioNovel rfl rfl
  have ⟨d, hd⟩ := h.2.2.2.2.1 1
    { rows := [{ buildArticle fmtIntegral scenarioNovel with ID := 1 }], docs := [] } rfl
  have hm := h.2.2.2.2.2 d (by rw [hd]; simp)
  ⟨rfl, rfl, d, hd, rfl, hm.1.symm, hm.2.2.2.2.2.1.symm, rfl⟩

/-! ## The field extractors -/

/-- For a non-negative mantissa the truncated value is the floor of the number `m * 2 ^ e`. -/
theorem truncFinite_eq_floor (m e : Int) (hm : 0 ≤ m) :
    truncFinite m e = ⌊(m : ℚ) * (2 : ℚ) ^ e⌋ := by
  unfold truncFinite
  split
  · rename_i he
    obtain ⟨n, rfl⟩ := Int.eq_ofNat_of_zero_le he
    rw [Int.toNat_ofNat, zpow_natCast]
    have : (m : ℚ) * (2 : ℚ) ^ n = ((m * 2 ^ n : Int) : ℚ) := by push_cast; ring
    rw [this, Int.floor_intCast]
  · rename_i he
    obtain ⟨n, hn⟩ := Int.eq_ofNat_of_zero_le (show 0 ≤ -e by omega)
    have he2 : e = -(n : Int) := by omega
    subst he2
    rw [neg_neg, Int.toNat_ofNat, zpow_neg, zpow_natCast]
    have : (m : ℚ) * ((2 : ℚ) ^ n)⁻¹ = (m : ℚ) / ((2 ^ n : ℕ) : ℚ) := by push_cast; ring
    rw [this, Rat.floor_intCast_div_natCast, Int.tdiv_eq_ediv hm (by positivity)]
    push_cast
    rfl

/-- Dividing by sixty commutes with taking the floor. -/
theorem floor_div_sixty (x : ℚ) : ⌊x / 60⌋ = ⌊x⌋ / 60 := by
  rw [Int.floor_eq_iff]
  have h1 : ((⌊x⌋ / 60 : Int) : ℚ) * 60 ≤ (⌊x⌋ : ℚ) := by
    have : (⌊x⌋ / 60) * 60 ≤ ⌊x⌋ := Int.ediv_mul_le _ (by norm_num)
    exact_mod_cast this
  have h2 : (⌊x⌋ : ℚ) + 1 ≤ ((⌊x⌋ / 60 : Int) : ℚ) * 60 + 60 := by
    have : ⌊x⌋ + 1 ≤ (⌊x⌋ / 60) * 60 + 60 := by omega
    exact_mod_cast this
  have h3 := Int.floor_le x
  have h4 := Int.lt_floor_add_one x
  constructor
  · rw [le_div_iff₀ (by norm_num)]; linarith
  · rw [div_lt_iff₀ (by norm_num)]; linarith

/-- C5, as stated, fails for an integer-valued float beyond the range of `int`: the float
`10 ^ 19` is not narrowed to that same integer (the conversion yields the least `int`; no
64-bit `int` equals `10 ^ 19`). -/
theorem getInt_large_float_not_preserved :
    getInt (Value.float64 (Float64.finite 10000000000000000000 0)) = -9223372036854775808
      ∧ getInt (Value.float64 (Float64.finite 10000000000000000000 0)) ≠ 10000000000000000000
      ∧ maxInt < 10000000000000000000 := by
  decide

/-- C5, amended: `getString` returns a string unchanged and the empty string for every other
value; `getInt` returns the integer itself for an `int`, `int32` or `int64`, the value with
its fraction discarded (towards zero) for a `float64` whose truncated value fits the 64-bit
`int` (hence that same integer for an integer-valued float in that range), some `int` for
every other `float64`, and `0` for every other value; both are total. -/
theorem extractors_total_with_defaults :
    (∀ s, getString (Value.str s) = s)
      ∧ (∀ v, (∀ s, v ≠ Value.str s) → getString v = "")
      ∧ (∀ i, getInt (Value.int i) = i)
      ∧ (∀ i, getInt (Value.int32 i) = i)
      ∧ (∀ i, getInt (Value.int64 i) = i)
      ∧ (∀ m e, minInt ≤ truncFinite m e → truncFinite m e ≤ maxInt →
          getInt (Value.float64 (Float64.finite m e)) = truncFinite m e)
      ∧ (∀ m e, 0 ≤ m → truncFinite m e ≤ maxInt →
          getInt (Value.float64 (Float64.finite m e)) = ⌊(m : ℚ) * (2 : ℚ) ^ e⌋)
      ∧ (∀ (n : Int) (j : Nat), minInt ≤ n → n ≤ maxInt →
          getInt (Value.float64 (Float64.finite (n * 2 ^ j) (-(j : Int)))) = n)
      ∧ (∀ f, minInt ≤ getInt (Value.float64 f) ∧ getInt (Value.float64 f) ≤ maxInt)
      ∧ (∀ v, (∀ f, v ≠ Value.float64 f) → (∀ i, v ≠ Value.int i) → (∀ i, v ≠ Value.int32 i) →
          (∀ i, v ≠ Value.int64 i) → getInt v = 0) := by
  have hfin : ∀ m e, minInt ≤ truncFinite m e → truncFinite m e ≤ maxInt →
      getInt (Value.float64 (Float64.finite m e)) = truncFinite m e := by
    intro m e h1 h2
    simp [getInt, Float64.toInt, h1, h2]
  refine ⟨fun _ => rfl, ?_, fun _ => rfl, fun _ => rfl, fun _ => rfl, hfin, ?_, ?_, ?_, ?_⟩
  · intro v hv
    cases v with
    | str s => exact absurd rfl (hv s)
    | _ => rfl
  · intro m e hm h2
    have h1 : minInt ≤ truncFinite m e := by
      rw [truncFinite_eq_floor m e hm]
      have : (0 : Int) ≤ ⌊(m : ℚ) * (2 : ℚ) ^ e⌋ := Int.floor_nonneg.mpr (by positivity)
      have hmin : minInt ≤ 0 := by decide
      omega
    rw [hfin m e h1 h2, truncFinite_eq_floor m e hm]
  · intro n j h1 h2
    have ht : truncFinite (n * 2 ^ j) (-(j : Int)) = n := by
      unfold truncFinite
      split
      · rename_i h
        have hj : j = 0 := by omega
        subst hj
        simp
      · rw [neg_neg, Int.toNat_ofNat]
        have hpos : (0 : Int) < 2 ^ j := by positivity
        rw [Int.tdiv_eq_ediv_of_dvd (Dvd.intro_left n rfl)]
        exact Int.mul_ediv_cancel n (ne_of_gt hpos)
    rw [hfin _ _ (by rw [ht]; exact h1) (by rw [ht]; exact h2), ht]
  · intro f
    have hmm : minInt ≤ maxInt := by decide
    cases f with
    | finite m e =>
        simp only [getInt, Float64.toInt]
        split
        · assumption
        · exact ⟨le_refl _, hmm⟩
    | _ => exact ⟨le_refl _, hmm⟩
  · intro v h1 h2 h3 h4
    cases v with
    | float64 f => exact absurd rfl (h1 f)
    | int i => exact absurd rfl (h2 i)
    | int32 i => exact absurd rfl (h3 i)
    | int64 i => exact absurd rfl (h4 i)
    | _ => rfl

/-- C5, amended, on samples: a string, a mapping, the floats `100` and `90.5`, `null`. -/
theorem extractors_total_with_defaults_witness :
    getString (Value.str "T") = "T"
      ∧ getString (Value.map []) = ""
      ∧ getInt (Value.float64 (Float64.finite 100 0)) = 100
      ∧ getInt (Value.float64 (Float64.finite 181 (-1))) = 90
      ∧ getInt Value.null = 0 :=
  ⟨extractors_total_with_defaults.1 "T",
    extractors_total_with_defaults.2.1 (Value.map []) (fun s h => by cases h),
    extractors_total_with_defaults.2.2.2.2.2.2.2.1 100 0 (by decide) (by decide),
    extractors_total_with_defaults.2.2.2.2.2.1 181 (-1) (by decide) (by decide),
    extractors_total_with_defaults.2.2.2.2.2.2.2.2.2 Value.null (fun f h => by cases h)
      (fun i h => by cases h) (fun i h => by cases h) (fun i h => by cases h)⟩

/-! ## The estimated read time -/

/-- C8, as stated, fails for a reading time beyond the range of `int`: for the numeric
`readingTime` of `10 ^ 19` seconds the document carries the quotient of the least `int`,
not the rendering of `floor(10 ^ 19 / 60)`. -/
theorem read_time_large_float :
    (buildDoc [("readingTime",
        Value.float64 (Float64.finite 10000000000000000000 0))]).estimated_read_time
        = "-153722867280912930分"
      ∧ toString ((10000000000000000000 : Int) / 60) ++ "分" = "166666666666666666分"
      ∧ (buildDoc [("readingTime",
          Value.float64 (Float64.finite 10000000000000000000 0))]).estimated_read_time
          ≠ toString ((10000000000000000000 : Int) / 60) ++ "分" := by
  decide

/-- C8, amended: for every source object the document's `estimated_read_time` is the
decimal rendering of `getInt(readingTime)` divided by 60 (integer division), followed by
"分"; it is "0分" when `readingTime` is absent or not numeric; and for a numeric reading
time of `s` seconds with `0 ≤ s` whose integer part fits the 64-bit `int` it is the
rendering of `floor(s / 60)` followed by "分". -/
theorem estimated_read_time_spec (novel : GoMap) :
    (buildDoc novel).estimated_read_time
        = toString (Int.tdiv (getInt (novel.get "readingTime")) 60) ++ "分"
      ∧ (novel.lookup "readingTime" = none → (buildDoc novel).estimated_read_time = "0分")
      ∧ ((∀ f, novel.get "readingTime" ≠ Value.float64 f)
          → (∀ i, novel.get "readingTime" ≠ Value.int i)
          → (∀ i, novel.get "readingTime" ≠ Value.int32 i)
          → (∀ i, novel.get "readingTime" ≠ Value.int64 i)
          → (buildDoc novel).estimated_read_time = "0分")
      ∧ (∀ m e, novel.get "readingTime" = Value.float64 (Float64.finite m e) → 0 ≤ m →
          truncFinite m e ≤ maxInt →
          (buildDoc novel).estimated_read_time
            = toString ⌊(m : ℚ) * (2 : ℚ) ^ e / 60⌋ ++ "分")
      ∧ (∀ i, 0 ≤ i →
          (novel.get "readingTime" = Value.int i ∨ novel.get "readingTime" = Value.int32 i
            ∨ novel.get "readingTime" = Value.int64 i) →
          (buildDoc novel).estimated_read_time = toString (i / 60) ++ "分") := by
  have hert : (buildDoc novel).estimated_read_time
      = toString (Int.tdiv (getInt (novel.get "readingTime")) 60) ++ "分" := rfl
  have hzero : getInt (novel.get "readingTime") = 0 →
      (buildDoc novel).estimated_read_time = "0分" := by
    intro h
    rw [hert, h]
    rfl
  refine ⟨hert, ?_, ?_, ?_, ?_⟩
  · intro h
    apply hzero
    simp [GoMap.get, h, getInt]
  · intro h1 h2 h3 h4
    apply hzero
    cases hv : novel.get "readingTime" with
    | float64 f => exact absurd hv (h1 f)
    | int i => exact absurd hv (h2 i)
    | int32 i => exact absurd hv (h3 i)
    | int64 i => exact absurd hv (h4 i)
    | _ => rfl
  · intro m e hv hm hle
    have hfl : truncFinite m e = ⌊(m : ℚ) * (2 : ℚ) ^ e⌋ := truncFinite_eq_floor m e hm
    have hnn : (0 : Int) ≤ truncFinite m e := by
      rw [hfl]
      exact Int.floor_nonneg.mpr (by positivity)
    have hmin : minInt ≤ 0 := by decide
    have hg : getInt (novel.get "readingTime") = truncFinite m e := by
      rw [hv]
      simp only [getInt, Float64.toInt]
      rw [if_pos ⟨by omega, hle⟩]
    rw [hert, hg, Int.tdiv_eq_ediv hnn (by norm_num), floor_div_sixty, hfl]
  · intro i hi hv
    have hg : getInt (novel.get "readingTime") = i := by
      rcases hv with hv | hv | hv <;> rw [hv] <;> rfl
    rw [hert, hg, Int.tdiv_eq_ediv hi (by norm_num)]

/-- C8, amended, at a reading time of 90.5 seconds: one minute. -/
theorem estimated_read_time_spec_witness :
    (buildDoc [("readingTime", Value.float64 (Float64.finite 181 (-1)))]).estimated_read_time
        = toString ⌊((181 : Int) : ℚ) * (2 : ℚ) ^ (-1 : Int) / 60⌋ ++ "分"
      ∧ (buildDoc [("readingTime", Value.float64 (Float64.finite 181 (-1)))]).estimated_read_time
        = "1分"
      ∧ (buildDoc []).estimated_read_time = "0分" :=
  ⟨(estimated_read_time_spec
      [("readingTime", Value.float64 (Float64.finite 181 (-1)))]).2.2.2.1 181 (-1) rfl
      (by decide) (by decide),
    by decide, (estimated_read_time_spec []).2.1 rfl⟩

/-! ## The two tag projections -/

/-- Over a list of mappings the loop of `extractTagList` keeps every element. -/
theorem filterMap_asMap_records (recs : List GoMap) :
    (recs.map Value.map).filterMap
        (fun t => t.asMap.map (fun eachTag => getString (eachTag.get "tag")))
      = recs.map (fun r => getString (r.get "tag")) := by
  induction recs with
  | nil => rfl
  | cons r rs ih =>
      rw [List.map_cons, List.filterMap_cons, asMap_map, List.map_cons, ih]
      rfl

/-- The tag list is the `"tag"` string of each element that is a mapping. -/
theorem extractTagList_of_records (novel tagsObj : GoMap) (recs : List GoMap)
    (htags : novel.get "tags" = Value.map tagsObj)
    (harr : tagsObj.get "tags" = Value.list (recs.map Value.map)) :
    extractTagList novel = recs.map (fun r => getString (r.get "tag")) := by
  unfold extractTagList
  rw [htags]
  simp only [Value.asMap]
  rw [harr]
  simp only [Value.asList]
  exact filterMap_asMap_records recs

/-- The article's `Tags` is the serialization of the inner list whenever there is one. -/
theorem buildArticle_Tags_of_list (fmtFloat : Int → Int → String) (novel tagsObj : GoMap)
    (tagsArr : List Value) (htags : novel.get "tags" = Value.map tagsObj)
    (harr : tagsObj.get "tags" = Value.list tagsArr) :
    (buildArticle fmtFloat novel).Tags = (marshal fmtFloat (Value.list tagsArr)).getD "" := by
  unfold buildArticle
  rw [htags]
  simp only [Value.asMap]
  rw [harr]
  simp only [Value.asList]
  cases marshal fmtFloat (Value.list tagsArr) <;> rfl

/-- The encoder's renderings of a list of single-field tag records. -/
theorem marshalList_tagRecords (fmtFloat : Int → Int → String) (ts : List String) :
    marshalList fmtFloat (ts.map (fun t => Value.map [("tag", Value.str t)]))
      = some (ts.map tagRecordText) := by
  induction ts with
  | nil => rfl
  | cons t ts ih =>
      simp only [List.map_cons, marshalList, ih]
      simp [marshal, marshalFields, sortFields, insertField, tagRecordText, List.foldr,
        String.intercalate, String.intercalate.go, String.append_assoc]

/-- The serialization of a list is never the empty text. -/
theorem marshal_list_ne_empty (fmtFloat : Int → Int → String) (xs : List Value) (out : String)
    (h : marshal fmtFloat (Value.list xs) = some out) : out ≠ "" := by
  simp only [marshal, Option.map_eq_some'] at h
  obtain ⟨ss, -, rfl⟩ := h
  intro hempty
  have hlen := congrArg String.length hempty
  simp only [String.length_append] at hlen
  have h1 : "[".length = 1 := rfl
  have h2 : "".length = 0 := rfl
  omega

/-- C4, as stated, fails at its own example: on the end-to-end payload the stored record's
`Tags` is the serialization of the tag records, not of the tag strings, while the indexed
document's `tags` is the list of tag strings. -/
theorem record_tags_are_serialized_records :
    (handlePixivJSON (memEnv sampleTable false false) scenarioJSON
        MemStore.empty).store.rows.map (fun a => a.Tags)
        = ["[\x7b\x22tag\x22:\x22romance\x22\x7d]"]
      ∧ (handlePixivJSON (memEnv sampleTable false false) scenarioJSON
          MemStore.empty).store.docs.map (fun d => d.tags) = [["romance"]]
      ∧ marshal fmtIntegral (Value.list ((extractTagList scenarioNovel).map Value.str))
          = some "[\x22romance\x22]"
      ∧ (buildArticle fmtIntegral scenarioNovel).Tags ≠ "[\x22romance\x22]" := by
  decide

/-- C4, amended: for a source object whose `tags.tags` is a list of tag records each
exposing a string `"tag"` field, the document's `tags` is the list of those tag strings in
order, and the record's `Tags` is the JSON serialization of the list of tag records
themselves whenever it can be serialized (it can when each record has the `tag` field only,
and is then the bracketed, comma-separated objects with one `tag` member each). -/
theorem tag_projections (fmtFloat : Int → Int → String) (novel tagsObj : GoMap)
    (recs : List GoMap)
    (htags : novel.get "tags" = Value.map tagsObj)
    (harr : tagsObj.get "tags" = Value.list (recs.map Value.map))
    (hrec : ∀ r ∈ recs, ∃ t, r.get "tag" = Value.str t) :
    (buildDoc novel).tags = extractTagList novel
      ∧ extractTagList novel = recs.map (fun r => getString (r.get "tag"))
      ∧ (∀ r ∈ recs, r.get "tag" = Value.str (getString (r.get "tag")))
      ∧ (∀ out, marshal fmtFloat (Value.list (recs.map Value.map)) = some out →
          (buildArticle fmtFloat novel).Tags = out)
      ∧ ((∀ r ∈ recs, r = [("tag", Value.str (getString (r.get "tag")))]) →
          (buildArticle fmtFloat novel).Tags
            = "[" ++ ",".intercalate ((extractTagList novel).map tagRecordText) ++ "]") := by
  have hx := extractTagList_of_records novel tagsObj recs htags harr
  have hT := buildArticle_Tags_of_list fmtFloat novel tagsObj (recs.map Value.map) htags harr
  refine ⟨rfl, hx, ?_, ?_, ?_⟩
  · intro r hr
    obtain ⟨t, ht⟩ := hrec r hr
    rw [ht]
    rfl
  · intro out hout
    rw [hT, hout]
    rfl
  · intro hone
    have hmap : recs.map Value.map
        = (recs.map (fun r => getString (r.get "tag"))).map
            (fun t => Value.map [("tag", Value.str t)]) := by
      rw [List.map_map]
      apply List.map_congr_left
      intro r hr
      exact congrArg Value.map (hone r hr)
    rw [hT, hx, hmap]
    simp only [marshal, marshalList_tagRecords]
    rfl

/-- C4, amended, at the tag list of the end-to-end payload. -/
theorem tag_projections_witness :
    (buildDoc scenarioNovel).tags = ["romance"]
      ∧ (buildArticle fmtIntegral scenarioNovel).Tags
          = "[" ++ ",".intercalate (["romance"].map tagRecordText) ++ "]"
      ∧ (buildArticle fmtIntegral scenarioNovel).Tags
          = "[\x7b\x22tag\x22:\x22romance\x22\x7d]" :=
  have h := tag_projections fmtIntegral scenarioNovel
    [("tags", Value.list [Value.map [("tag", Value.str "romance")]])]
    [[("tag", Value.str "romance")]] rfl rfl
    (fun r hr => ⟨"romance", by rw [List.mem_singleton.mp hr]; rfl⟩)
  ⟨h.1.trans (h.2.1.trans rfl),
    (h.2.2.2.2 (fun r hr => by rw [List.mem_singleton.mp hr]; rfl)).trans rfl, by decide⟩

/-- C7, as stated, fails when an element of the inner list is not a tag record: for the
inner list holding the bare string `romance`, extraction succeeds and the stored record's
`Tags` is the serialization of that list, not the empty string. -/
theorem tags_kept_for_non_record_element :
    (handlePixivJSON (memEnv bareTagTable false false) "bare" MemStore.empty).result
        = Except.ok ()
      ∧ (handlePixivJSON (memEnv bareTagTable false false) "bare"
          MemStore.empty).store.rows.map (fun a => a.Tags) = ["[\x22romance\x22]"]
      ∧ (buildArticle fmtIntegral bareTagNovel).Tags ≠ ""
      ∧ extractTagList bareTagNovel = [] :=
  ⟨rfl, by decide, by decide, by decide⟩

/-- C7, amended: when extraction succeeds and the `"tags"` key of the source object is
absent or not a mapping, or the inner `"tags"` key is absent or not a list, the call
returns no extraction error and the record handed to the store has an empty `Tags`. When
the inner `"tags"` is a list, `Tags` is its serialization whatever the elements are, and is
empty only if the list cannot be serialized. -/
theorem tags_empty_on_missing_levels {σ : Type} (env : Env σ) (jsonStr : String) (s : σ)
    (root : GoMap) (k : String) (firstNovel rest : GoMap)
    (hdec : env.unmarshal jsonStr = Except.ok root)
    (hnovel : (root.get "novel").asMap = some ((k, Value.map firstNovel) :: rest)) :
    (handlePixivJSON env jsonStr s).writes.head?
        = some (Write.record (buildArticle env.fmtFloat firstNovel))
      ∧ (handlePixivJSON env jsonStr s).result ≠ Except.error HandleError.noNovel
      ∧ (handlePixivJSON env jsonStr s).result ≠ Except.error HandleError.firstNovelNil
      ∧ ((firstNovel.lookup "tags" = none ∨ (∀ m, firstNovel.get "tags" ≠ Value.map m)
            ∨ (∃ tagsMap : GoMap, firstNovel.get "tags" = Value.map tagsMap
                ∧ (tagsMap.lookup "tags" = none ∨ ∀ xs, tagsMap.get "tags" ≠ Value.list xs))) →
          (buildArticle env.fmtFloat firstNovel).Tags = "")
      ∧ (∀ (tagsMap : GoMap) (tagsArr : List Value), firstNovel.get "tags" = Value.map tagsMap →
          tagsMap.get "tags" = Value.list tagsArr →
          (buildArticle env.fmtFloat firstNovel).Tags
              = (marshal env.fmtFloat (Value.list tagsArr)).getD ""
            ∧ (∀ out, marshal env.fmtFloat (Value.list tagsArr) = some out →
                (buildArticle env.fmtFloat firstNovel).Tags = out ∧ out ≠ "")) := by
  have hw := handlePixivJSON_writes env jsonStr s root k firstNovel rest hdec hnovel
  have hres := handlePixivJSON_no_extraction_error env jsonStr s root k firstNovel rest hdec
    hnovel
  refine ⟨?_, fun h => by simpa [HandleError.isExtraction] using hres _ h,
    fun h => by simpa [HandleError.isExtraction] using hres _ h, ?_, ?_⟩
  · rcases hw with h | h <;> rw [h] <;> rfl
  · intro h
    unfold buildArticle
    rcases h with h | h | ⟨tagsMap, h1, h2⟩
    · simp [GoMap.get, h, Value.asMap]
    · cases hv : firstNovel.get "tags" with
      | map m => exact absurd hv (h m)
      | _ => rfl
    · rw [h1]
      simp only [Value.asMap]
      rcases h2 with h2 | h2
      · simp [GoMap.get, h2, Value.asList]
      · cases hv : tagsMap.get "tags" with
        | list xs => exact absurd hv (h2 xs)
        | _ => rfl
  · intro tagsMap tagsArr h1 h2
    have hT := buildArticle_Tags_of_list env.fmtFloat firstNovel tagsMap tagsArr h1 h2
    refine ⟨hT, ?_⟩
    intro out hout
    refine ⟨?_, marshal_list_ne_empty env.fmtFloat tagsArr out hout⟩
    rw [hT, hout]
    rfl

/-- C7, amended, at a source object without a `tags` key, on the in-memory stores. -/
theorem tags_empty_on_missing_levels_witness :
    (handlePixivJSON
        (memEnv [("p", [("novel", Value.map [("1", Value.map [("title", Value.str "T")])])])]
          false false) "p" MemStore.empty).writes.head?
        = some (Write.record (buildArticle fmtIntegral [("title", Value.str "T")]))
      ∧ (buildArticle fmtIntegral [("title", Value.str "T")]).Tags = "" :=
  have h := tags_empty_on_missing_levels
    (memEnv [("p", [("novel", Value.map [("1", Value.map [("title", Value.str "T")])])])]
      false false) "p" MemStore.empty
    [("novel", Value.map [("1", Value.map [("title", Value.str "T")])])] "1"
    [("title", Value.str "T")] [] rfl rfl
  ⟨h.1, h.2.2.2.1 (Or.inl rfl)⟩

/-! ## The consume loop -/

/-- From the head of the loop, any run of read results ends at the head of the loop, having
called `handlePixivJSON` once per delivered message, in order. -/
theorem foldl_consumeStep_idle {σ : Type} (env : Env σ) (reads : List ReadResult)
    (w : Worker σ) (hw : w.phase = Phase.idle) :
    (reads.foldl (consumeStep env) w).phase = Phase.idle
      ∧ (reads.foldl (consumeStep env) w).calls.map Prod.fst
          = w.calls.map Prod.fst ++ deliveredPayloads reads := by
  induction reads generalizing w with
  | nil => simp [hw, deliveredPayloads]
  | cons r rs ih =>
      rw [List.foldl_cons]
      cases r with
      | error e =>
          have hstep : (consumeStep env w (ReadResult.error e)).phase = Phase.idle := by
            simp [consumeStep, hw]
          obtain ⟨h1, h2⟩ := ih _ hstep
          refine ⟨h1, ?_⟩
          rw [h2]
          simp [consumeStep, hw, deliveredPayloads]
      | message m =>
          have hstep : (consumeStep env w (ReadResult.message m)).phase = Phase.idle := by
            simp [consumeStep, hw]
          obtain ⟨h1, h2⟩ := ih _ hstep
          refine ⟨h1, ?_⟩
          rw [h2]
          simp [consumeStep, hw, deliveredPayloads]

/-- C10: for every sequence of read results and every behaviour of the decoder and the
stores, the loop is back at its head after the sequence (it never exits); the calls of
`handlePixivJSON` are exactly the delivered payloads, once each, in delivery order; a read
error adds a log line and a three-second sleep and causes no call and no write; and a
message read next, after whatever came before, is handed to `handlePixivJSON` on the
current store, whatever that call returns. -/
theorem consume_loop_never_exits {σ : Type} (env : Env σ) (reads : List ReadResult) (s : σ) :
    (runKafkaConsumer env reads s).phase = Phase.idle
      ∧ (runKafkaConsumer env reads s).calls.map Prod.fst = deliveredPayloads reads
      ∧ (∀ e,
          (runKafkaConsumer env (reads ++ [ReadResult.error e]) s).phase = Phase.idle
            ∧ (runKafkaConsumer env (reads ++ [ReadResult.error e]) s).calls
                = (runKafkaConsumer env reads s).calls
            ∧ (runKafkaConsumer env (reads ++ [ReadResult.error e]) s).writes
                = (runKafkaConsumer env reads s).writes
            ∧ (runKafkaConsumer env (reads ++ [ReadResult.error e]) s).store
                = (runKafkaConsumer env reads s).store
            ∧ (runKafkaConsumer env (reads ++ [ReadResult.error e]) s).log
                = (runKafkaConsumer env reads s).log ++ [LogLine.readError e]
            ∧ (runKafkaConsumer env (reads ++ [ReadResult.error e]) s).slept
                = (runKafkaConsumer env reads s).slept + 3)
      ∧ (∀ m,
          (runKafkaConsumer env (reads ++ [ReadResult.message m]) s).phase = Phase.idle
            ∧ (runKafkaConsumer env (reads ++ [ReadResult.message m]) s).calls
                = (runKafkaConsumer env reads s).calls
                  ++ [(m.Value,
                    (handlePixivJSON env m.Value (runKafkaConsumer env reads s).store).result)]
            ∧ (runKafkaConsumer env (reads ++ [ReadResult.message m]) s).writes
                = (runKafkaConsumer env reads s).writes
                  ++ (handlePixivJSON env m.Value (runKafkaConsumer env reads s).store).writes
            ∧ (runKafkaConsumer env (reads ++ [ReadResult.message m]) s).store
                = (handlePixivJSON env m.Value (runKafkaConsumer env reads s).store).store) := by
  have hstart : (Worker.start s).phase = Phase.idle := rfl
  obtain ⟨h1, h2⟩ := foldl_consumeStep_idle env reads (Worker.start s) hstart
  have hidle : (runKafkaConsumer env reads s).phase = Phase.idle := h1
  refine ⟨h1, ?_, ?_, ?_⟩
  · simpa [runKafkaConsumer, Worker.start] using h2
  · intro e
    have hrun : runKafkaConsumer env (reads ++ [ReadResult.error e]) s
        = consumeStep env (runKafkaConsumer env reads s) (ReadResult.error e) := by
      simp [runKafkaConsumer, List.foldl_append]
    rw [hrun]
    simp [consumeStep, hidle]
  · intro m
    have hrun : runKafkaConsumer env (reads ++ [ReadResult.message m]) s
        = consumeStep env (runKafkaConsumer env reads s) (ReadResult.message m) := by
      simp [runKafkaConsumer, List.foldl_append]
    rw [hrun]
    simp [consumeStep, hidle]

/-- C10 on a sample run: a read error, the end-to-end message, a message with an empty
container, a second read error and the end-to-end message again. Both deliveries of the
good message are handled and stored, the failed message is handled once and not retried,
and the loop is at its head at the end. -/
theorem consume_loop_never_exits_witness :
    (runKafkaConsumer (memEnv sampleTable false false)
        [ReadResult.error "timeout", ReadResult.message ⟨0, 0, "k", scenarioJSON⟩,
          ReadResult.message ⟨0, 1, "k", emptyNovelJSON⟩, ReadResult.error "timeout",
          ReadResult.message ⟨0, 2, "k", scenarioJSON⟩] MemStore.empty).phase = Phase.idle
      ∧ (runKafkaConsumer (memEnv sampleTable false false)
        [ReadResult.error "timeout", ReadResult.message ⟨0, 0, "k", scenarioJSON⟩,
          ReadResult.message ⟨0, 1, "k", emptyNovelJSON⟩, ReadResult.error "timeout",
          ReadResult.message ⟨0, 2, "k", scenarioJSON⟩] MemStore.empty).calls
          = [(scenarioJSON, Except.ok ()), (emptyNovelJSON, Except.error HandleError.noNovel),
              (scenarioJSON, Except.ok ())]
      ∧ (runKafkaConsumer (memEnv sampleTable false false)
        [ReadResult.error "timeout", ReadResult.message ⟨0, 0, "k", scenarioJSON⟩,
          ReadResult.message ⟨0, 1, "k", emptyNovelJSON⟩, ReadResult.error "timeout",
          ReadResult.message ⟨0, 2, "k", scenarioJSON⟩] MemStore.empty).store.rows.map
            (fun a => a.ID) = [1, 2]
      ∧ (runKafkaConsumer (memEnv sampleTable false false)
        [ReadResult.error "timeout", ReadResult.message ⟨0, 0, "k", scenarioJSON⟩,
          ReadResult.message ⟨0, 1, "k", emptyNovelJSON⟩, ReadResult.error "timeout",
          ReadResult.message ⟨0, 2, "k", scenarioJSON⟩] MemStore.empty).slept = 6 :=
  ⟨(consume_loop_never_exits (memEnv sampleTable false false)
      [ReadResult.error "timeout", ReadResult.message ⟨0, 0, "k", scenarioJSON⟩,
        ReadResult.message ⟨0, 1, "k", emptyNovelJSON⟩, ReadResult.error "timeout",
        ReadResult.message ⟨0, 2, "k", scenarioJSON⟩] MemStore.empty).1, rfl, rfl, rfl⟩

end Mosumosu
